import Mathlib

/-!
Shallow embedding of `src/app.py` (a Flask data-exploration app over a table
of PLFS survey records) and proofs about its filter / privacy-suppression /
export pipeline.

The Record Store is modelled as a `List PLFSRecord` in store order (the order
`query.all()` returns rows).  Form parameters (`request.form.get`) are
`Option String` (`none` when the field is absent); JSON bodies are a `Json`
value type.  Each route's record-level pipeline is modelled as a pure
function from the store (and, where the code reads `TEST_MODE`, an explicit
mode flag) to its result.
-/

/-- The database model `PLFSRecord` (app.py lines 14-22), without the
surrogate `id` key.  `age` and `wage` are Python ints, modelled as `Int`. -/
structure PLFSRecord where
  state : String
  gender : String
  age : Int
  year : String
  employment_status : String
  wage : Int
deriving DecidableEq, Repr

/-- `TEST_MODE = True` (app.py line 26). -/
def TEST_MODE : Bool := true

/-- Truthiness of a form value `request.form.get(k)`: Python `if filters["state"]:`
is false for `None` and for the empty string. -/
def truthyForm : Option String → Bool
  | none => false
  | some s => !(s == "")

/-- One conditional filter step
`if filters[k]: query = query.filter(PLFSRecord.k == filters[k])`
(app.py lines 78-85, 130-137, 172-179 — the three form routes repeat the
identical chain). -/
def applyEq (cond : Option String) (proj : PLFSRecord → String)
    (q : List PLFSRecord) : List PLFSRecord :=
  match cond with
  | none => q
  | some s => if s == "" then q else q.filter (fun r => proj r == s)

/-- A form-route filter: the four optional equality constraints read from
`request.form` on /explore POST, /download_csv and /download_excel
(`chart_type` is presentation-only and not part of filtering). -/
structure FilterParams where
  state : Option String
  gender : Option String
  employment_status : Option String
  year : Option String
deriving DecidableEq, Repr

/-- The filter with every field absent. -/
def emptyFilter : FilterParams :=
  { state := none, gender := none, employment_status := none, year := none }

/-- The conditional filter chain shared verbatim by the three form routes
(app.py 78-87, 130-139, 172-181): constraints applied in source order
state, gender, employment_status, year; `results = query.all()` returns the
matching rows in store order. -/
def formQuery (f : FilterParams) (store : List PLFSRecord) : List PLFSRecord :=
  applyEq f.year (fun r => r.year)
    (applyEq f.employment_status (fun r => r.employment_status)
      (applyEq f.gender (fun r => r.gender)
        (applyEq f.state (fun r => r.state) store)))

/-- Privacy suppression `if not TEST_MODE and len(results) < 5: results = []`
(app.py 90-91, 140-141, 182-183), with the mode flag explicit. -/
def suppress (testMode : Bool) (results : List PLFSRecord) : List PLFSRecord :=
  if !testMode && results.length < 5 then [] else results

/-- Record-level result of /explore POST (app.py 68-91) for a given mode. -/
def explorePipeline (testMode : Bool) (f : FilterParams) (store : List PLFSRecord) :
    List PLFSRecord :=
  suppress testMode (formQuery f store)

/-- /explore POST as shipped (the global `TEST_MODE`). -/
def explore (f : FilterParams) (store : List PLFSRecord) : List PLFSRecord :=
  explorePipeline TEST_MODE f store

/-- Boolean version of one constraint: vacuous when unset or empty. -/
def condOk : Option String → String → Bool
  | none, _ => true
  | some s, v => s == "" || v == s

/-- Boolean version of "record `r` satisfies every set constraint of `f`". -/
def matchesFilter (f : FilterParams) (r : PLFSRecord) : Bool :=
  condOk f.state r.state && condOk f.gender r.gender
    && condOk f.employment_status r.employment_status && condOk f.year r.year

theorem applyEq_eq_filter (cond : Option String) (proj : PLFSRecord → String)
    (q : List PLFSRecord) :
    applyEq cond proj q = q.filter (fun r => condOk cond (proj r)) := by
  match cond with
  | none => simp [applyEq, condOk]
  | some s =>
    by_cases h : s == ""
    · simp [applyEq, condOk, h]
    · simp [applyEq, condOk, h]

theorem formQuery_eq_filter (f : FilterParams) (store : List PLFSRecord) :
    formQuery f store = store.filter (matchesFilter f) := by
  simp only [formQuery, applyEq_eq_filter, List.filter_filter]
  congr 1
  funext r
  simp [matchesFilter]
  cases condOk f.state r.state <;>
    cases condOk f.gender r.gender <;>
      cases condOk f.employment_status r.employment_status <;>
        cases condOk f.year r.year <;> rfl

/-! ## Decimal rendering of Python ints (`str(r.age)`, `str(r.wage)`) -/

/-- The decimal digit character for `d < 10`. -/
def digitChar (d : Nat) : Char :=
  if d = 0 then '0' else if d = 1 then '1' else if d = 2 then '2'
  else if d = 3 then '3' else if d = 4 then '4' else if d = 5 then '5'
  else if d = 6 then '6' else if d = 7 then '7' else if d = 8 then '8'
  else if d = 9 then '9' else '*'

/-- Value of a decimal digit character. -/
def digitVal (c : Char) : Option Nat :=
  if c = '0' then some 0 else if c = '1' then some 1 else if c = '2' then some 2
  else if c = '3' then some 3 else if c = '4' then some 4 else if c = '5' then some 5
  else if c = '6' then some 6 else if c = '7' then some 7 else if c = '8' then some 8
  else if c = '9' then some 9 else none

/-- Decimal digit characters of `n`, most significant first (Python `str`). -/
def natToDecChars (n : Nat) : List Char :=
  if n = 0 then ['0'] else ((Nat.digits 10 n).reverse.map digitChar)

/-- Decimal digit characters of a Python int: minus sign for negatives. -/
def intToDecChars (i : Int) : List Char :=
  if i < 0 then '-' :: natToDecChars i.natAbs else natToDecChars i.natAbs

def intToDecString (i : Int) : String := ⟨intToDecChars i⟩

def parseDigitsAux : List Char → Nat → Option Nat
  | [], acc => some acc
  | c :: cs, acc =>
    match digitVal c with
    | some d => parseDigitsAux cs (acc * 10 + d)
    | none => none

/-- Parse a non-empty all-digit string as a natural number. -/
def parseNatDec : List Char → Option Nat
  | [] => none
  | c :: cs => parseDigitsAux (c :: cs) 0

/-- Parse an optional leading minus sign then digits, as `int(...)` does on
the canonical output of `str`. -/
def parseIntDec (cs : List Char) : Option Int :=
  match cs with
  | [] => none
  | c :: rest =>
    if c = '-' then
      match parseNatDec rest with
      | some n => some (-(n : Int))
      | none => none
    else
      match parseNatDec (c :: rest) with
      | some n => some ((n : Int))
      | none => none

theorem digitVal_digitChar (d : Nat) (h : d < 10) :
    digitVal (digitChar d) = some d := by
  interval_cases d <;> decide

theorem digitChar_ne_dash (d : Nat) : digitChar d ≠ '-' := by
  unfold digitChar
  split_ifs <;> decide

theorem parseDigitsAux_map (L : List Nat) (h : ∀ d ∈ L, d < 10) :
    ∀ acc : Nat,
      parseDigitsAux (L.map digitChar) acc
        = some (L.foldl (fun a d => a * 10 + d) acc) := by
  induction L with
  | nil => intro acc; rfl
  | cons d L ih =>
    intro acc
    have hd : d < 10 := h d (List.mem_cons_self d L)
    have hrest : ∀ x ∈ L, x < 10 := fun x hx => h x (List.mem_cons_of_mem d hx)
    simp only [List.map_cons, parseDigitsAux, digitVal_digitChar d hd]
    exact (ih hrest (acc * 10 + d)).trans (by simp)

theorem foldr_eq_ofDigits (l : List Nat) :
    l.foldr (fun d a => a * 10 + d) 0 = Nat.ofDigits 10 l := by
  induction l with
  | nil => simp [Nat.ofDigits]
  | cons d l ih =>
    simp only [List.foldr_cons, ih, Nat.ofDigits_cons]
    ring

theorem foldl_digits_reverse (n : Nat) :
    ((Nat.digits 10 n).reverse).foldl (fun a d => a * 10 + d) 0 = n := by
  rw [List.foldl_reverse]
  have := foldr_eq_ofDigits (Nat.digits 10 n)
  simpa [this] using congrArg (fun x => x) (this.trans (Nat.ofDigits_digits 10 n))

theorem natToDecChars_ne_nil (n : Nat) : natToDecChars n ≠ [] := by
  unfold natToDecChars
  split
  · simp
  · rename_i h
    have : Nat.digits 10 n ≠ [] := Nat.digits_ne_nil_iff_ne_zero.mpr h
    simpa using this

theorem natToDecChars_ne_dash (n : Nat) : ∀ c ∈ natToDecChars n, c ≠ '-' := by
  intro c hc
  unfold natToDecChars at hc
  split at hc
  · simp at hc
    simp [hc]
  · rcases List.mem_map.mp hc with ⟨d, _, rfl⟩
    exact digitChar_ne_dash d

theorem parseNatDec_natToDecChars (n : Nat) :
    parseNatDec (natToDecChars n) = some n := by
  by_cases h : n = 0
  · subst h; rfl
  · have hdig : ∀ d ∈ (Nat.digits 10 n).reverse, d < 10 := by
      intro d hd
      exact Nat.digits_lt_base (by norm_num) (List.mem_reverse.mp hd)
    have hchars : natToDecChars n = ((Nat.digits 10 n).reverse.map digitChar) := by
      unfold natToDecChars; simp [h]
    have hparse := parseDigitsAux_map ((Nat.digits 10 n).reverse) hdig 0
    rw [foldl_digits_reverse] at hparse
    rcases hmap : (Nat.digits 10 n).reverse.map digitChar with _ | ⟨c, cs⟩
    · exfalso
      have : Nat.digits 10 n ≠ [] := Nat.digits_ne_nil_iff_ne_zero.mpr h
      simp at hmap
      exact this hmap
    · rw [hchars, hmap]
      rw [hmap] at hparse
      exact hparse

theorem parseIntDec_intToDecChars (i : Int) :
    parseIntDec (intToDecChars i) = some i := by
  by_cases hneg : i < 0
  · have hdash : intToDecChars i = '-' :: natToDecChars i.natAbs := by
      unfold intToDecChars; simp [hneg]
    have hstep : parseIntDec ('-' :: natToDecChars i.natAbs)
        = match parseNatDec (natToDecChars i.natAbs) with
          | some n => some (-(n : Int))
          | none => none := rfl
    rw [hdash, hstep, parseNatDec_natToDecChars]
    have : -((i.natAbs : Nat) : Int) = i := by omega
    show some (-((i.natAbs : Nat) : Int)) = some i
    exact congrArg some this
  · have hchars : intToDecChars i = natToDecChars i.natAbs := by
      unfold intToDecChars; simp [hneg]
    rcases hmap : natToDecChars i.natAbs with _ | ⟨c, cs⟩
    · exact absurd hmap (natToDecChars_ne_nil i.natAbs)
    · have hcne : c ≠ '-' :=
        natToDecChars_ne_dash i.natAbs c (by rw [hmap]; exact List.mem_cons_self c cs)
      have hstep : parseIntDec (c :: cs)
          = if c = '-' then
              match parseNatDec cs with
              | some n => some (-(n : Int))
              | none => none
            else
              match parseNatDec (c :: cs) with
              | some n => some ((n : Int))
              | none => none := rfl
      rw [hchars, hmap, hstep, if_neg hcne, ← hmap, parseNatDec_natToDecChars]
      have : ((i.natAbs : Nat) : Int) = i := by omega
      show some ((i.natAbs : Nat) : Int) = some i
      exact congrArg some this

/-! ## JSON bodies and the API routes -/

/-- Parsed JSON values (`request.json`).  JSON numbers are modelled as
integers (the dataset and filters only involve ints). -/
inductive Json where
  | null
  | bool (b : Bool)
  | num (n : Int)
  | str (s : String)
  | arr (elems : List Json)
  | obj (fields : List (String × Json))

/-- Python truthiness of a JSON value, as tested by `if filters.get(k):`. -/
def jsonTruthyV : Json → Bool
  | .null => false
  | .bool b => b
  | .num n => !(n == 0)
  | .str s => !(s == "")
  | .arr elems => !elems.isEmpty
  | .obj fields => !fields.isEmpty

/-- `filters.get(k)` on a parsed JSON object (a Python dict: keys distinct,
`json.loads` collapses duplicates before the route sees them). -/
def jsonGet (fields : List (String × Json)) (k : String) : Option Json :=
  match fields.find? (fun kv => kv.fst == k) with
  | some kv => some kv.snd
  | none => none

/-- `PLFSRecord.col == v` for a scalar JSON value `v` against a TEXT column:
equality for strings; for numerics SQLite TEXT affinity converts the operand
to text (booleans are rendered as the integers 1/0).  The catch-all branch
is unreachable in the routes: a truthy array/object never reaches the
comparison because sqlite3 refuses to bind it as a parameter — api_filter
surfaces that ProgrammingError instead of running the query. -/
def jsonEqText (v : Json) (cell : String) : Bool :=
  match v with
  | .str t => cell == t
  | .num n => cell == ⟨intToDecChars n⟩
  | .bool b => cell == (if b then "1" else "0")
  | _ => false

/-- Whether sqlite3 can bind the value as a query parameter: scalars bind,
lists and dicts raise `sqlite3.ProgrammingError` when the query executes. -/
def jsonBindable : Json → Bool
  | .arr _ => false
  | .obj _ => false
  | _ => true

/-- A field of the JSON body is harmless iff it is absent, falsy (skipped by
`if filters.get(k):`), or a bindable scalar; a truthy list/dict value makes
`query.all()` raise ProgrammingError. -/
def jsonFieldOk (cond : Option Json) : Bool :=
  match cond with
  | none => true
  | some v => !(jsonTruthyV v) || jsonBindable v

/-- One conditional step of api_filter (app.py 221-228):
`if filters.get(k): query = query.filter(PLFSRecord.k == filters[k])`. -/
def applyJsonEq (cond : Option Json) (proj : PLFSRecord → String)
    (q : List PLFSRecord) : List PLFSRecord :=
  match cond with
  | none => q
  | some v => if jsonTruthyV v then q.filter (fun r => jsonEqText v (proj r)) else q

/-- The filter chain of api_filter (app.py 218-230), constraints in source
order state, gender, employment_status, year. -/
def jsonQuery (body : List (String × Json)) (store : List PLFSRecord) :
    List PLFSRecord :=
  applyJsonEq (jsonGet body "year") (fun r => r.year)
    (applyJsonEq (jsonGet body "employment_status") (fun r => r.employment_status)
      (applyJsonEq (jsonGet body "gender") (fun r => r.gender)
        (applyJsonEq (jsonGet body "state") (fun r => r.state) store)))

/-- Outcome of an API request: a framework 400 (unparseable body), an
uncaught Python exception (Flask turns it into a 500 response), or a JSON
array of rows. -/
inductive ApiResult where
  | badRequest
  | serverError (exc : String)
  | ok (rows : List PLFSRecord)
deriving DecidableEq, Repr

/-- POST /api/filter (app.py 216-238).  `body = none` models a request whose
body Flask could not parse as JSON (`request.json` aborts with 400); a parsed
non-object body reaches `filters.get(...)` and raises an uncaught
`AttributeError` (dicts have `.get`, other JSON values do not); on an object
body the four `if` steps build the query without error, and then
`query.all()` raises an uncaught `sqlite3.ProgrammingError` if any truthy
field value is a list or dict (sqlite3 cannot bind those as parameters),
otherwise returns the filtered rows. -/
def api_filter (store : List PLFSRecord) (body : Option Json) : ApiResult :=
  match body with
  | none => .badRequest
  | some (.obj fields) =>
    if jsonFieldOk (jsonGet fields "state") && jsonFieldOk (jsonGet fields "gender")
        && jsonFieldOk (jsonGet fields "employment_status")
        && jsonFieldOk (jsonGet fields "year")
    then .ok (jsonQuery fields store)
    else .serverError "ProgrammingError"
  | some _ => .serverError "AttributeError"

/-- One JSON object of the /api/data and /api/filter responses
(app.py 207-214 and 231-238): the six record fields. -/
def recordToJson (r : PLFSRecord) : List (String × Json) :=
  [("state", .str r.state), ("gender", .str r.gender), ("age", .num r.age),
   ("year", .str r.year), ("employment_status", .str r.employment_status),
   ("wage", .num r.wage)]

/-- GET /api/data (app.py 204-214): `PLFSRecord.query.all()` — every record,
no filter, no suppression, no mode check. -/
def api_data (store : List PLFSRecord) : List (List (String × Json)) :=
  store.map recordToJson

/-- The JSON body denoting the same constraints as a form filter, with unset
fields sent as JSON null (`filters.get` treats null exactly like absence). -/
def jsonOfField : Option String → Json
  | none => .null
  | some s => .str s

def filterBody (f : FilterParams) : List (String × Json) :=
  [("state", jsonOfField f.state), ("gender", jsonOfField f.gender),
   ("employment_status", jsonOfField f.employment_status),
   ("year", jsonOfField f.year)]

theorem applyJsonEq_ofField (c : Option String) (proj : PLFSRecord → String)
    (q : List PLFSRecord) :
    applyJsonEq (some (jsonOfField c)) proj q = applyEq c proj q := by
  match c with
  | none => rfl
  | some s =>
    by_cases h : s == ""
    · simp [applyJsonEq, applyEq, jsonOfField, jsonTruthyV, h]
    · simp [applyJsonEq, applyEq, jsonOfField, jsonTruthyV, jsonEqText, h]

theorem jsonQuery_filterBody (f : FilterParams) (store : List PLFSRecord) :
    jsonQuery (filterBody f) store = formQuery f store := by
  have hs : jsonGet (filterBody f) "state" = some (jsonOfField f.state) := rfl
  have hg : jsonGet (filterBody f) "gender" = some (jsonOfField f.gender) := rfl
  have he : jsonGet (filterBody f) "employment_status"
      = some (jsonOfField f.employment_status) := rfl
  have hy : jsonGet (filterBody f) "year" = some (jsonOfField f.year) := rfl
  rw [jsonQuery, hs, hg, he, hy, applyJsonEq_ofField, applyJsonEq_ofField,
    applyJsonEq_ofField, applyJsonEq_ofField]
  rfl

theorem jsonFieldOk_ofField (c : Option String) :
    jsonFieldOk (some (jsonOfField c)) = true := by
  cases c <;> simp [jsonFieldOk, jsonOfField, jsonTruthyV, jsonBindable]

theorem api_filter_filterBody (f : FilterParams) (store : List PLFSRecord) :
    api_filter store (some (.obj (filterBody f))) = .ok (formQuery f store) := by
  have hs : jsonGet (filterBody f) "state" = some (jsonOfField f.state) := rfl
  have hg : jsonGet (filterBody f) "gender" = some (jsonOfField f.gender) := rfl
  have he : jsonGet (filterBody f) "employment_status"
      = some (jsonOfField f.employment_status) := rfl
  have hy : jsonGet (filterBody f) "year" = some (jsonOfField f.year) := rfl
  show (if jsonFieldOk (jsonGet (filterBody f) "state")
        && jsonFieldOk (jsonGet (filterBody f) "gender")
        && jsonFieldOk (jsonGet (filterBody f) "employment_status")
        && jsonFieldOk (jsonGet (filterBody f) "year")
      then ApiResult.ok (jsonQuery (filterBody f) store)
      else ApiResult.serverError "ProgrammingError") = ApiResult.ok (formQuery f store)
  rw [hs, hg, he, hy, jsonFieldOk_ofField, jsonFieldOk_ofField, jsonFieldOk_ofField,
    jsonFieldOk_ofField, jsonQuery_filterBody]
  rfl

/-! ## CSV and spreadsheet formatting (download_csv, download_excel) -/

/-- `fieldnames=["state","gender","age","year","employment_status","wage"]`
(app.py 145). -/
def headerRow : List String :=
  ["state", "gender", "age", "year", "employment_status", "wage"]

/-- The CSV cells `writer.writerow({...})` emits for one record
(app.py 148-155): ints are rendered by `str`. -/
def recordRow (r : PLFSRecord) : List String :=
  [r.state, r.gender, intToDecString r.age, r.year, r.employment_status,
   intToDecString r.wage]

/-- The rows download_csv writes (app.py 144-155): `if results:` guards the
whole writer block, so an empty result set writes nothing, not even the
header. -/
def csvRows (results : List PLFSRecord) : List (List String) :=
  if results.isEmpty then [] else headerRow :: results.map recordRow

/-- `csv.writer` QUOTE_MINIMAL: a field is quoted iff it contains a quote,
the delimiter, or a line break. -/
def csvNeedsQuote (s : String) : Bool :=
  s.data.any (fun c => c = '"' || c = ',' || c = '\r' || c = '\n')

/-- Standard CSV escaping: wrap in quotes, double any embedded quote. -/
def csvEscapeField (s : String) : String :=
  if csvNeedsQuote s then
    ⟨'"' :: (s.data.foldr
      (fun c acc => if c = '"' then '"' :: '"' :: acc else c :: acc) ['"'])⟩
  else s

/-- One CSV line, with the csv module's default `\r\n` terminator. -/
def csvRenderRow (row : List String) : String :=
  String.intercalate "," (row.map csvEscapeField) ++ "\r\n"

/-- `si.getvalue()`: the whole CSV payload (app.py 157). -/
def csvRender (rows : List (List String)) : String :=
  String.join (rows.map csvRenderRow)

/-- POST /download_csv (app.py 120-159) at row granularity, mode explicit. -/
def downloadCsvRows (testMode : Bool) (f : FilterParams)
    (store : List PLFSRecord) : List (List String) :=
  csvRows (suppress testMode (formQuery f store))

/-- POST /download_csv: the CSV payload string. -/
def download_csv (testMode : Bool) (f : FilterParams)
    (store : List PLFSRecord) : String :=
  csvRender (downloadCsvRows testMode f store)

/-- A spreadsheet cell: openpyxl keeps ints as numbers and strings as text. -/
inductive Cell where
  | s (v : String)
  | i (v : Int)
deriving DecidableEq, Repr

/-- One worksheet row for a record (app.py 185-192). -/
def excelRecordRow (r : PLFSRecord) : List Cell :=
  [.s r.state, .s r.gender, .i r.age, .s r.year, .s r.employment_status,
   .i r.wage]

/-- `df.to_excel(writer, index=False)` on the frame built at app.py 185-192:
header row then one row per record; a frame built from an empty list has no
columns, so the sheet is empty. -/
def excelSheet (results : List PLFSRecord) : List (List Cell) :=
  if results.isEmpty then [] else (headerRow.map Cell.s) :: results.map excelRecordRow

/-- POST /download_excel (app.py 162-201) at sheet granularity, mode explicit. -/
def download_excel (testMode : Bool) (f : FilterParams)
    (store : List PLFSRecord) : List (List Cell) :=
  excelSheet (suppress testMode (formQuery f store))

/-! ## Parsing a CSV export back into records (spec round-trip property) -/

/-- Read one data row back, interpreting `age` and `wage` as integers. -/
def parseCsvRecord (row : List String) : Option PLFSRecord :=
  match row with
  | [st, g, a, y, e, w] =>
    match parseIntDec a.data, parseIntDec w.data with
    | some age, some wage =>
      some { state := st, gender := g, age := age, year := y,
             employment_status := e, wage := wage }
    | _, _ => none
  | _ => none

def parseCsvRecords : List (List String) → Option (List PLFSRecord)
  | [] => some []
  | row :: rows =>
    match parseCsvRecord row, parseCsvRecords rows with
    | some r, some rs => some (r :: rs)
    | _, _ => none

/-- Read a whole CSV export back: an empty payload denotes zero records, a
non-empty one must start with the expected header. -/
def parseCsv (rows : List (List String)) : Option (List PLFSRecord) :=
  match rows with
  | [] => some []
  | h :: rest => if h = headerRow then parseCsvRecords rest else none

theorem parseCsvRecord_recordRow (r : PLFSRecord) :
    parseCsvRecord (recordRow r) = some r := by
  have ha : parseIntDec (intToDecString r.age).data = some r.age :=
    parseIntDec_intToDecChars r.age
  have hw : parseIntDec (intToDecString r.wage).data = some r.wage :=
    parseIntDec_intToDecChars r.wage
  simp only [recordRow, parseCsvRecord, ha, hw]

theorem parseCsvRecords_map (results : List PLFSRecord) :
    parseCsvRecords (results.map recordRow) = some results := by
  induction results with
  | nil => rfl
  | cons r rs ih =>
    simp only [List.map_cons, parseCsvRecords, parseCsvRecord_recordRow, ih]

theorem parseCsv_csvRows (results : List PLFSRecord) :
    parseCsv (csvRows results) = some results := by
  by_cases h : results.isEmpty
  · rw [List.isEmpty_iff] at h
    subst h
    rfl
  · simp [csvRows, h, parseCsv, parseCsvRecords_map]

/-! ## Dropdown lists (/explore, app.py 96-99) and Python `str.strip` -/

/-- Characters removed by Python `str.strip()` (ASCII whitespace). -/
def isPySpace (c : Char) : Bool :=
  c = ' ' || c = '\t' || c = '\n' || c = '\r' || c = '\x0b' || c = '\x0c'

/-- `str.strip()` on the character list: drop leading and trailing whitespace. -/
def stripChars (l : List Char) : List Char :=
  ((l.dropWhile isPySpace).reverse.dropWhile isPySpace).reverse

/-- Python `s.strip()`. -/
def pyStrip (s : String) : String := ⟨stripChars s.data⟩

/-- Lexicographic-by-code-point comparison of character lists: exactly how
Python compares the strings that `sorted` receives. -/
def leCharsB : List Char → List Char → Bool
  | [], _ => true
  | _ :: _, [] => false
  | a :: as, b :: bs => if a < b then true else if a = b then leCharsB as bs else false

/-- Python string order, as used by `sorted`. -/
def strLe (a b : String) : Prop := leCharsB a.data b.data = true

instance : DecidableRel strLe := fun a b => by unfold strLe; infer_instance

theorem leCharsB_total : ∀ as bs, leCharsB as bs = true ∨ leCharsB bs as = true := by
  intro as
  induction as with
  | nil => intro bs; left; rfl
  | cons a as ih =>
    intro bs
    cases bs with
    | nil => right; rfl
    | cons b bs =>
      rcases lt_trichotomy a b with h | h | h
      · left; simp [leCharsB, h]
      · subst h
        rcases ih bs with h2 | h2
        · left; simp [leCharsB, h2, lt_irrefl]
        · right; simp [leCharsB, h2, lt_irrefl]
      · right; simp [leCharsB, h]

theorem leCharsB_trans : ∀ as bs cs, leCharsB as bs = true → leCharsB bs cs = true →
    leCharsB as cs = true := by
  intro as
  induction as with
  | nil => intro bs cs _ _; rfl
  | cons a as ih =>
    intro bs cs h1 h2
    cases bs with
    | nil => simp [leCharsB] at h1
    | cons b bs =>
      cases cs with
      | nil => simp [leCharsB] at h2
      | cons c cs =>
        rcases lt_trichotomy a b with hab | hab | hab
        · rcases lt_trichotomy b c with hbc | hbc | hbc
          · simp [leCharsB, lt_trans hab hbc]
          · subst hbc; simp [leCharsB, hab]
          · simp [leCharsB, asymm hbc, ne_of_gt hbc] at h2
        · subst hab
          rcases lt_trichotomy a c with hac | hac | hac
          · simp [leCharsB, hac]
          · subst hac
            have h1a : leCharsB as bs = true := by
              simpa [leCharsB, lt_irrefl] using h1
            have h2a : leCharsB bs cs = true := by
              simpa [leCharsB, lt_irrefl] using h2
            simp [leCharsB, lt_irrefl, ih bs cs h1a h2a]
          · simp [leCharsB, asymm hac, ne_of_gt hac] at h2
        · simp [leCharsB, asymm hab, ne_of_gt hab] at h1

theorem leCharsB_antisymm : ∀ as bs, leCharsB as bs = true → leCharsB bs as = true →
    as = bs := by
  intro as
  induction as with
  | nil =>
    intro bs h1 h2
    cases bs with
    | nil => rfl
    | cons b bs => simp [leCharsB] at h2
  | cons a as ih =>
    intro bs h1 h2
    cases bs with
    | nil => simp [leCharsB] at h1
    | cons b bs =>
      rcases lt_trichotomy a b with hab | hab | hab
      · simp [leCharsB, asymm hab, ne_of_gt hab] at h2
      · subst hab
        have h1a : leCharsB as bs = true := by simpa [leCharsB, lt_irrefl] using h1
        have h2a : leCharsB bs as = true := by simpa [leCharsB, lt_irrefl] using h2
        rw [ih bs h1a h2a]
      · simp [leCharsB, asymm hab, ne_of_gt hab] at h1

instance : IsTrans String strLe := ⟨fun a b c => leCharsB_trans a.data b.data c.data⟩
instance : IsTotal String strLe := ⟨fun a b => leCharsB_total a.data b.data⟩
instance : IsAntisymm String strLe :=
  ⟨fun a b h1 h2 => congrArg String.mk (leCharsB_antisymm a.data b.data h1 h2)⟩

/-- One dropdown list (app.py 96-99):
`sorted({row[0].strip() for row in query(col).distinct().all() if row[0]})` —
SQL DISTINCT, keep truthy (non-empty) values, strip, collect into a set,
sort ascending.  (`row[0]` is never NULL here: the loader stores strings.) -/
def dropdownColumn (store : List PLFSRecord) (proj : PLFSRecord → String) :
    List String :=
  List.insertionSort strLe
    (List.dedup ((((store.map proj).dedup).filter (fun s => !(s == ""))).map pyStrip))

/-- The spec's words for the same list: "the sorted set of distinct
non-empty values of that column across all records" (no strip step). -/
def specDropdownColumn (store : List PLFSRecord) (proj : PLFSRecord → String) :
    List String :=
  List.insertionSort strLe
    (List.dedup ((store.map proj).filter (fun s => !(s == ""))))

/-- A string `str.strip` leaves unchanged. -/
def Stripped (s : String) : Prop := pyStrip s = s

instance (s : String) : Decidable (Stripped s) := by
  unfold Stripped; infer_instance

/-- Every categorical field of every record is already stripped — true of
every store the loader builds, since load_csv_to_db strips on insert. -/
def StoreStripped (store : List PLFSRecord) : Prop :=
  ∀ r ∈ store, Stripped r.state ∧ Stripped r.gender ∧
    Stripped r.employment_status ∧ Stripped r.year

instance (store : List PLFSRecord) : Decidable (StoreStripped store) := by
  unfold StoreStripped; infer_instance

/-- A raw CSV row as read by pandas, fields already stringified; `age`/`wage`
already through `int(...)` (a failed conversion crashes the boot, out of
scope here). -/
structure RawRow where
  state : String
  gender : String
  age : Int
  year : String
  employment_status : String
  wage : Int

/-- One `PLFSRecord(...)` constructor call of load_csv_to_db (app.py 32-42):
every string field is passed through `.strip()`. -/
def loadRecord (row : RawRow) : PLFSRecord :=
  { state := pyStrip row.state, gender := pyStrip row.gender, age := row.age,
    year := pyStrip row.year, employment_status := pyStrip row.employment_status,
    wage := row.wage }

/-- `load_csv_to_db` (app.py 28-44): the store is the loaded rows in file
order. -/
def load_csv_to_db (rows : List RawRow) : List PLFSRecord :=
  rows.map loadRecord

theorem dropWhile_idem (p : Char → Bool) (l : List Char) :
    (l.dropWhile p).dropWhile p = l.dropWhile p := by
  induction l with
  | nil => rfl
  | cons a l ih =>
    by_cases h : p a
    · simp [List.dropWhile_cons, h, ih]
    · simp [List.dropWhile_cons, h]

theorem head_false_of_dropWhile_eq_cons {p : Char → Bool} :
    ∀ {l : List Char} {b : Char} {t : List Char},
      l.dropWhile p = b :: t → p b = false := by
  intro l
  induction l with
  | nil => intro b t h; simp [List.dropWhile] at h
  | cons a l ih =>
    intro b t h
    by_cases hp : p a
    · rw [List.dropWhile_cons, if_pos hp] at h
      exact ih h
    · rw [List.dropWhile_cons, if_neg hp] at h
      cases h
      simpa using hp

theorem exists_append_dropWhile (p : Char → Bool) (l : List Char) :
    ∃ t, t ++ l.dropWhile p = l := by
  induction l with
  | nil => exact ⟨[], rfl⟩
  | cons a l ih =>
    by_cases hp : p a
    · rcases ih with ⟨t, ht⟩
      exact ⟨a :: t, by simp [List.dropWhile_cons, hp, ht]⟩
    · exact ⟨[], by simp [List.dropWhile_cons, hp]⟩

theorem dropWhile_stripChars (l : List Char) :
    (stripChars l).dropWhile isPySpace = stripChars l := by
  unfold stripChars
  rcases exists_append_dropWhile isPySpace (l.dropWhile isPySpace).reverse with ⟨t, ht⟩
  have hA : l.dropWhile isPySpace
      = ((l.dropWhile isPySpace).reverse.dropWhile isPySpace).reverse ++ t.reverse := by
    have h2 := congrArg List.reverse ht
    simp only [List.reverse_append, List.reverse_reverse] at h2
    exact h2.symm
  rcases hs : ((l.dropWhile isPySpace).reverse.dropWhile isPySpace).reverse
    with _ | ⟨b, B⟩
  · simp
  · have hb : isPySpace b = false := by
      apply head_false_of_dropWhile_eq_cons (t := B ++ t.reverse) (l := l)
      rw [hA, hs]
      rfl
    rw [List.dropWhile_cons, hb]
    simp

theorem stripChars_idem (l : List Char) :
    stripChars (stripChars l) = stripChars l := by
  show (((stripChars l).dropWhile isPySpace).reverse.dropWhile isPySpace).reverse
      = stripChars l
  rw [dropWhile_stripChars]
  show ((((l.dropWhile isPySpace).reverse.dropWhile isPySpace).reverse).reverse.dropWhile
      isPySpace).reverse = stripChars l
  rw [List.reverse_reverse, dropWhile_idem]
  rfl

theorem pyStrip_idem (s : String) : pyStrip (pyStrip s) = pyStrip s :=
  congrArg String.mk (stripChars_idem s.data)

theorem load_csv_to_db_stripped (rows : List RawRow) :
    StoreStripped (load_csv_to_db rows) := by
  intro r hr
  rcases List.mem_map.mp hr with ⟨row, _, rfl⟩
  exact ⟨pyStrip_idem row.state, pyStrip_idem row.gender,
    pyStrip_idem row.employment_status, pyStrip_idem row.year⟩

theorem dropdownColumn_eq_spec (store : List PLFSRecord)
    (proj : PLFSRecord → String)
    (h : ∀ r ∈ store, Stripped (proj r)) :
    dropdownColumn store proj = specDropdownColumn store proj := by
  unfold dropdownColumn specDropdownColumn
  have hmapid :
      (((store.map proj).dedup).filter (fun s => !(s == ""))).map pyStrip
        = ((store.map proj).dedup).filter (fun s => !(s == "")) := by
    have : ∀ v ∈ ((store.map proj).dedup).filter (fun s => !(s == "")),
        pyStrip v = id v := by
      intro v hv
      have hv2 : v ∈ store.map proj := List.mem_dedup.mp (List.mem_filter.mp hv).1
      rcases List.mem_map.mp hv2 with ⟨r, hr, rfl⟩
      exact h r hr
    rw [List.map_congr_left this, List.map_id]
  rw [hmapid]
  have hperm : List.Perm
      (List.dedup (((store.map proj).dedup).filter (fun s => !(s == ""))))
      (List.dedup ((store.map proj).filter (fun s => !(s == "")))) := by
    apply (List.perm_ext_iff_of_nodup (List.nodup_dedup _) (List.nodup_dedup _)).mpr
    intro a
    simp only [List.mem_dedup, List.mem_filter]
  exact List.eq_of_perm_of_sorted
    ((List.perm_insertionSort _ _).trans
      (hperm.trans (List.perm_insertionSort _ _).symm))
    (List.sorted_insertionSort _ _) (List.sorted_insertionSort _ _)

/-! ## The spec's three-record example store -/

def rec1 : PLFSRecord :=
  { state := "CA", gender := "F", age := 30, year := "2021",
    employment_status := "Employed", wage := 50000 }

def rec2 : PLFSRecord :=
  { state := "TX", gender := "M", age := 25, year := "2021",
    employment_status := "Unemployed", wage := 0 }

def rec3 : PLFSRecord :=
  { state := "CA", gender := "M", age := 40, year := "2020",
    employment_status := "Employed", wage := 60000 }

def exampleStore : List PLFSRecord := [rec1, rec2, rec3]

/-- The form filter `{state: "CA"}`. -/
def caFilter : FilterParams :=
  { state := some "CA", gender := none, employment_status := none, year := none }

/-! ## Claim theorems -/

theorem condOk_iff (c : Option String) (v : String) :
    condOk c v = true ↔ ∀ s, c = some s → s ≠ "" → v = s := by
  cases c with
  | none => simp [condOk]
  | some s =>
    by_cases h : s = ""
    · subst h
      simp [condOk]
    · simp [condOk, h]

theorem matchesFilter_iff (f : FilterParams) (r : PLFSRecord) :
    matchesFilter f r = true ↔
      ((∀ s, f.state = some s → s ≠ "" → r.state = s) ∧
       (∀ s, f.gender = some s → s ≠ "" → r.gender = s) ∧
       (∀ s, f.employment_status = some s → s ≠ "" → r.employment_status = s) ∧
       (∀ s, f.year = some s → s ≠ "" → r.year = s)) := by
  unfold matchesFilter
  simp only [Bool.and_eq_true, condOk_iff]
  tauto

/-- C1: filtering is an exact conjunction of the non-empty equality
constraints: a record is in the filtered result iff it is in the store and
matches every set field; the empty filter returns the whole store; and the
/api/filter chain agrees with the form chain shared by /explore POST,
/download_csv and /download_excel on the body denoting the same filter. -/
theorem filter_exact_conjunction (store : List PLFSRecord) (f : FilterParams) :
    (∀ r : PLFSRecord, r ∈ formQuery f store ↔ r ∈ store ∧
      ((∀ s, f.state = some s → s ≠ "" → r.state = s) ∧
       (∀ s, f.gender = some s → s ≠ "" → r.gender = s) ∧
       (∀ s, f.employment_status = some s → s ≠ "" → r.employment_status = s) ∧
       (∀ s, f.year = some s → s ≠ "" → r.year = s)))
    ∧ formQuery emptyFilter store = store
    ∧ jsonQuery (filterBody f) store = formQuery f store := by
  refine ⟨fun r => ?_, rfl, jsonQuery_filterBody f store⟩
  rw [formQuery_eq_filter, List.mem_filter, matchesFilter_iff]

/-- C2: the privacy suppressor returns the result set unchanged when in test
mode or when it has at least 5 rows, and the empty set otherwise. -/
theorem suppress_contract (testMode : Bool) (results : List PLFSRecord) :
    suppress testMode results
      = (if testMode = true ∨ 5 ≤ results.length then results else []) := by
  cases testMode with
  | false =>
    by_cases h : results.length < 5
    · have h5 : ¬ (5 ≤ results.length) := by omega
      simp [suppress, h, h5]
    · have h5 : 5 ≤ results.length := by omega
      simp [suppress, h, h5]
  | true => simp [suppress]

/-- C3 counterexample: /api/filter does not pass its result through the
privacy suppressor.  On a one-record store with the empty-object body it
answers with that single row — a non-empty response of fewer than 5 records,
different from the production-suppressed result (which would be empty). -/
theorem api_filter_bypasses_suppressor_cex :
    api_filter [rec1] (some (.obj [])) = .ok [rec1]
    ∧ ([rec1] : List PLFSRecord) ≠ []
    ∧ ([rec1] : List PLFSRecord).length < 5
    ∧ suppress false (jsonQuery [] [rec1]) = [] := by
  refine ⟨by decide, by decide, by decide, by decide⟩

/-- C3 amended: only the form routes pass through the Privacy Suppressor —
in production mode a suppressor output is empty or has at least 5 rows, and
/explore POST inherits that guarantee — while /api/filter skips suppression
entirely and can return a non-empty array of fewer than 5 records. -/
theorem suppression_on_form_routes_only :
    (∀ rs : List PLFSRecord, suppress false rs = [] ∨ 5 ≤ (suppress false rs).length)
    ∧ (∀ f store, explorePipeline false f store = []
        ∨ 5 ≤ (explorePipeline false f store).length)
    ∧ (∃ store body rows, api_filter store (some body) = ApiResult.ok rows
        ∧ rows ≠ [] ∧ rows.length < 5) := by
  have hsup : ∀ rs : List PLFSRecord,
      suppress false rs = [] ∨ 5 ≤ (suppress false rs).length := by
    intro rs
    unfold suppress
    by_cases h : rs.length < 5
    · left; simp [h]
    · right; simp [h]; omega
  exact ⟨hsup, fun f store => hsup (formQuery f store),
    ⟨[rec1], .obj [], [rec1], by decide, by decide, by decide⟩⟩

/-- C4: as shipped, TEST_MODE is true, so the suppression branch is never
taken: /explore POST, /download_csv and /download_excel each return or
format the unsuppressed filtered result set, whatever its size. -/
theorem shipped_test_mode_no_suppression :
    TEST_MODE = true
    ∧ (∀ f store, explore f store = formQuery f store)
    ∧ (∀ f store, downloadCsvRows TEST_MODE f store = csvRows (formQuery f store))
    ∧ (∀ f store, download_excel TEST_MODE f store = excelSheet (formQuery f store)) := by
  refine ⟨rfl, fun f store => ?_, fun f store => ?_, fun f store => ?_⟩ <;>
    simp [explore, explorePipeline, downloadCsvRows, download_excel, TEST_MODE, suppress]

/-- C5: GET /api/data returns one JSON object per store record, carrying the
six record fields verbatim — no filtering, no suppression, no mode check. -/
theorem api_data_fetch_all (store : List PLFSRecord) (i : Nat) :
    (api_data store).length = store.length
    ∧ (api_data store)[i]? = (store[i]?).map (fun r =>
        [("state", Json.str r.state), ("gender", Json.str r.gender),
         ("age", Json.num r.age), ("year", Json.str r.year),
         ("employment_status", Json.str r.employment_status),
         ("wage", Json.num r.wage)]) := by
  refine ⟨by simp [api_data], ?_⟩
  simp only [api_data, List.getElem?_map]
  rcases store[i]? with _ | r
  · rfl
  · simp [recordToJson]

/-- C6: the CSV export of the post-suppression result set is an entirely
empty payload — not even a header line — when the set is empty, and
otherwise the exact header state, gender, age, year, employment_status,
wage followed by one data row per record in store order. -/
theorem csv_export_layout (testMode : Bool) (f : FilterParams)
    (store : List PLFSRecord) :
    (suppress testMode (formQuery f store) = [] →
      downloadCsvRows testMode f store = [] ∧ download_csv testMode f store = "")
    ∧ (suppress testMode (formQuery f store) ≠ [] →
      downloadCsvRows testMode f store
        = ["state", "gender", "age", "year", "employment_status", "wage"]
            :: (suppress testMode (formQuery f store)).map recordRow) := by
  constructor
  · intro h
    have : downloadCsvRows testMode f store = [] := by
      simp [downloadCsvRows, csvRows, h]
    exact ⟨this, by simp [download_csv, this, csvRender, String.join]⟩
  · intro h
    have : (suppress testMode (formQuery f store)).isEmpty = false := by
      simpa [List.isEmpty_iff] using h
    simp [downloadCsvRows, csvRows, this, headerRow]

/-- C6 witness: on a one-record store an empty production-mode export is the
empty payload; on the example store the test-mode export of the CA filter is
the header plus the two matching rows. -/
theorem csv_export_layout_witness :
    (downloadCsvRows false emptyFilter [rec1] = []
      ∧ download_csv false emptyFilter [rec1] = "")
    ∧ downloadCsvRows true caFilter exampleStore
        = ["state", "gender", "age", "year", "employment_status", "wage"]
            :: (suppress true (formQuery caFilter exampleStore)).map recordRow := by
  exact ⟨(csv_export_layout false emptyFilter [rec1]).1 (by decide),
    (csv_export_layout true caFilter exampleStore).2 (by decide)⟩

/-- C7 counterexample: with production mode fixed for both exports, the CSV
of the empty filter over a one-record store parses back to zero records,
while /api/filter returns the record for the same filter: the round-trip
equivalence fails because only /download_csv suppresses. -/
theorem csv_json_roundtrip_cex :
    api_filter [rec1] (some (.obj (filterBody emptyFilter))) = .ok [rec1]
    ∧ parseCsv (downloadCsvRows false emptyFilter [rec1]) = some []
    ∧ ([] : List PLFSRecord) ≠ [rec1] := by
  refine ⟨by decide, by decide, by decide⟩

/-- C7 amended: whenever suppression does not alter the filtered set — in
test mode always, in production mode when the set is empty or has at least
5 rows — parsing the CSV export back (ages and wages as integers) yields
exactly the row sequence /api/filter returns for the same filter; over
arbitrary modes the equivalence fails only because /download_csv suppresses
while /api/filter does not. -/
theorem csv_json_roundtrip (testMode : Bool) (f : FilterParams)
    (store : List PLFSRecord)
    (h : suppress testMode (formQuery f store) = formQuery f store) :
    api_filter store (some (.obj (filterBody f))) = .ok (formQuery f store)
    ∧ parseCsv (downloadCsvRows testMode f store) = some (formQuery f store) := by
  constructor
  · exact api_filter_filterBody f store
  · rw [downloadCsvRows, h, parseCsv_csvRows]

/-- C7 witness: test mode, the CA filter on the example store. -/
theorem csv_json_roundtrip_witness :
    api_filter exampleStore (some (.obj (filterBody caFilter)))
      = .ok (formQuery caFilter exampleStore)
    ∧ parseCsv (downloadCsvRows true caFilter exampleStore)
      = some (formQuery caFilter exampleStore) :=
  csv_json_roundtrip true caFilter exampleStore (by decide)

/-- C9: on every store whose stored values are stripped — which every store
built by load_csv_to_db is — each /explore dropdown equals the sorted set of
distinct non-empty values of its column, and on the example store the state
dropdown is exactly ["CA", "TX"]. -/
theorem dropdowns_sorted_distinct (store : List PLFSRecord)
    (h : StoreStripped store) :
    dropdownColumn store (fun r => r.state)
        = specDropdownColumn store (fun r => r.state)
    ∧ dropdownColumn store (fun r => r.gender)
        = specDropdownColumn store (fun r => r.gender)
    ∧ dropdownColumn store (fun r => r.employment_status)
        = specDropdownColumn store (fun r => r.employment_status)
    ∧ dropdownColumn store (fun r => r.year)
        = specDropdownColumn store (fun r => r.year)
    ∧ (∀ rows, StoreStripped (load_csv_to_db rows))
    ∧ dropdownColumn exampleStore (fun r => r.state) = ["CA", "TX"] :=
  ⟨dropdownColumn_eq_spec store _ (fun r hr => (h r hr).1),
    dropdownColumn_eq_spec store _ (fun r hr => (h r hr).2.1),
    dropdownColumn_eq_spec store _ (fun r hr => (h r hr).2.2.1),
    dropdownColumn_eq_spec store _ (fun r hr => (h r hr).2.2.2),
    load_csv_to_db_stripped, by decide⟩

/-- C9 witness: the example store is stripped and its state dropdown agrees
with the spec's description. -/
theorem dropdowns_sorted_distinct_witness :
    StoreStripped exampleStore
    ∧ dropdownColumn exampleStore (fun r => r.state)
        = specDropdownColumn exampleStore (fun r => r.state) :=
  ⟨by decide, (dropdowns_sorted_distinct exampleStore (by decide)).1⟩

theorem intToDecChars_ne_nil (i : Int) : intToDecChars i ≠ [] := by
  unfold intToDecChars
  split
  · simp
  · exact natToDecChars_ne_nil i.natAbs

theorem jsonEqText_empty_of_truthy (v : Json) (h : jsonTruthyV v = true) :
    jsonEqText v "" = false := by
  cases v with
  | null => simp [jsonTruthyV] at h
  | bool b =>
    simp [jsonTruthyV] at h
    subst h
    decide
  | num n =>
    have hne : ("" : String) ≠ ⟨intToDecChars n⟩ := by
      intro hh
      exact intToDecChars_ne_nil n (congrArg String.data hh).symm
    show ("" == (⟨intToDecChars n⟩ : String)) = false
    exact beq_eq_false_iff_ne.mpr hne
  | str s =>
    simp [jsonTruthyV] at h
    show ("" == s) = false
    exact beq_eq_false_iff_ne.mpr (Ne.symm h)
  | arr elems => rfl
  | obj fields => rfl

/-- C10: a filter field set to the empty string imposes no constraint —
the query is the one with the field absent — any falsy JSON value on
/api/filter is likewise skipped, and a record whose field value is the
empty string is never selected by an active equality constraint on that
field (on any of the four routes, which share these chains). -/
theorem empty_string_imposes_no_constraint (store : List PLFSRecord)
    (f : FilterParams) (v : Json) (r : PLFSRecord) :
    formQuery { f with state := some "" } store
        = formQuery { f with state := none } store
    ∧ formQuery { f with gender := some "" } store
        = formQuery { f with gender := none } store
    ∧ formQuery { f with employment_status := some "" } store
        = formQuery { f with employment_status := none } store
    ∧ formQuery { f with year := some "" } store
        = formQuery { f with year := none } store
    ∧ (jsonTruthyV v = false → ∀ proj q, applyJsonEq (some v) proj q = q)
    ∧ (jsonTruthyV v = true → jsonEqText v "" = false)
    ∧ (∀ s, s ≠ "" → f.state = some s → r ∈ formQuery f store → r.state ≠ "")
    ∧ (∀ s, s ≠ "" → f.gender = some s → r ∈ formQuery f store → r.gender ≠ "")
    ∧ (∀ s, s ≠ "" → f.employment_status = some s → r ∈ formQuery f store →
        r.employment_status ≠ "")
    ∧ (∀ s, s ≠ "" → f.year = some s → r ∈ formQuery f store → r.year ≠ "") := by
  have happ : ∀ (proj : PLFSRecord → String) (q : List PLFSRecord),
      applyEq (some "") proj q = q := fun proj q => by simp [applyEq]
  have hnone : ∀ (proj : PLFSRecord → String) (q : List PLFSRecord),
      applyEq none proj q = q := fun proj q => rfl
  refine ⟨by simp [formQuery, happ, hnone], by simp [formQuery, happ, hnone],
    by simp [formQuery, happ, hnone], by simp [formQuery, happ, hnone],
    fun hfalse proj q => by simp [applyJsonEq, hfalse],
    jsonEqText_empty_of_truthy v, ?_, ?_, ?_, ?_⟩
  all_goals intro s hs hf hr
  all_goals rw [formQuery_eq_filter] at hr
  all_goals have hm := (matchesFilter_iff f r).mp (List.mem_filter.mp hr).2
  · rw [hm.1 s hf hs]; exact hs
  · rw [hm.2.1 s hf hs]; exact hs
  · rw [hm.2.2.1 s hf hs]; exact hs
  · rw [hm.2.2.2 s hf hs]; exact hs

/-- C10 witness: concrete instances — an empty-string gender constraint is a
no-op on the example store, a falsy JSON value is skipped by /api/filter's
chain, and a truthy value never matches an empty cell. -/
theorem empty_string_witness :
    formQuery { caFilter with gender := some "" } exampleStore
      = formQuery { caFilter with gender := none } exampleStore
    ∧ applyJsonEq (some (Json.str "")) (fun r => r.state) exampleStore = exampleStore
    ∧ jsonEqText (Json.str "CA") "" = false := by
  have h1 := empty_string_imposes_no_constraint exampleStore caFilter (Json.str "") rec1
  have h2 := empty_string_imposes_no_constraint exampleStore caFilter (Json.str "CA") rec1
  exact ⟨h1.2.1, h1.2.2.2.2.1 (by decide) _ _, h2.2.2.2.2.2.1 (by decide)⟩
